import Mathlib

/-!
Verification development for the fathom-cron sync service.

The development shallowly embeds the parts of the repository that carry
invariants: the rate limiter and paginated client of `fathom_client.py`,
the idempotency ledger of `state.py`, and the reconciliation loop of
`sync.py`.  Pure Python functions become Lean functions; the network and
the clock become explicit oracles; `time.time()` values are modelled as
rationals; fallible calls return sum types.
-/

/-! ### Python truthiness helpers -/

/-- Python `a or b` for an optional string against a string default: both
`None` and the empty string are falsy, as in
`meeting.get("title") or meeting.get("meeting_title") or "Untitled Meeting"`
in `sync.py`. -/
def pyOrStr (a : Option String) (b : String) : String :=
  match a with
  | none => b
  | some s => if s.isEmpty then b else s

/-- Python `a or b` for an optional list against a list default: both `None`
and the empty list are falsy, as in the
`data.get("meetings") or data.get("items") or data.get("recordings") or []`
chain in `fathom_client.list_meetings`. -/
def pyOrList {α : Type} (a : Option (List α)) (b : List α) : List α :=
  match a with
  | none => b
  | some l => if l.isEmpty then b else l

/-! ### StateManager (`state.py`) -/

/-- Value stored per processed recording id by
`StateManager.mark_processed`. -/
structure SyncRecord where
  drive_file_id : String
  synced_at : String
deriving DecidableEq

/-- The in-memory `StateManager.processed` dict: an insertion-ordered
association list with unique keys, as a Python dict. -/
abbrev StateMap := List (String × SyncRecord)

/-- Dict membership lookup. -/
def lookupRec : StateMap → String → Option SyncRecord
  | [], _ => none
  | (k, v) :: rest, i => if k = i then some v else lookupRec rest i

/-- `StateManager.is_processed`: Python `str(recording_id) in self.processed`
(ids here are already strings). -/
def is_processed (st : StateMap) (i : String) : Bool :=
  (lookupRec st i).isSome

/-- Python dict assignment `d[k] = v`: overwrite in place if the key exists,
otherwise append at the end. -/
def setRec : StateMap → String → SyncRecord → StateMap
  | [], i, r => [(i, r)]
  | (k, v) :: rest, i, r =>
      if k = i then (i, r) :: rest else (k, v) :: setRec rest i r

/-- `StateManager.mark_processed`: record `{drive_file_id, synced_at}` under
the id, after which `_save` persists the whole mapping. -/
def mark_processed (st : StateMap) (i fid ts : String) : StateMap :=
  setRec st i ⟨fid, ts⟩

/-- Contents of the durable state file: `none` means the file is absent,
`some none` means present but unparseable, `some (some m)` means it parses
to the mapping `m`. -/
def load_state : Option (Option StateMap) → StateMap
  | some (some m) => m
  | _ => []

/-- `StateManager._save`: the persisted form is a total snapshot of the
entire in-memory mapping (`json.dump(self.processed, f)`), not a delta. -/
def save_state (st : StateMap) : Option (Option StateMap) :=
  some (some st)

/-! ### Filename generation (`sync.make_filename`) -/

/-- Python `str.strip()`: drop whitespace from both ends. -/
def stripChars (l : List Char) : List Char :=
  ((l.dropWhile Char.isWhitespace).reverse.dropWhile Char.isWhitespace).reverse

/-- The `safe` value computed by `sync.make_filename`: keep only
alphanumerics and spaces, `strip()`, replace spaces by underscores, and fall
back to `"untitled"` when the result is empty.  The code computes the strip
before the space replacement. -/
def safe_title (title : String) : List Char :=
  let kept := title.data.filter (fun c => c.isAlphanum || c = ' ')
  let safe1 := (stripChars kept).map (fun c => if c = ' ' then '_' else c)
  if safe1.isEmpty then "untitled".data else safe1

/-- `sync.make_filename`: the f-string
interpolation of the id, an underscore, the safe title and `".txt"`. -/
def make_filename (recording_id title : String) : String :=
  recording_id ++ "_" ++ String.mk (safe_title title) ++ ".txt"

/-- Modelled from the spec claim wording for comparison in a refinement
check: the same cleaning steps but applied in the order the claim lists
them (strip characters, then replace spaces with underscores, then trim),
rather than the code's order (trim before replacement). -/
def claim_order_filename (recording_id title : String) : String :=
  let kept := title.data.filter (fun c => c.isAlphanum || c = ' ')
  let replaced := kept.map (fun c => if c = ' ' then '_' else c)
  let trimmed := stripChars replaced
  let safe := if trimmed.isEmpty then "untitled".data else trimmed
  recording_id ++ "_" ++ String.mk safe ++ ".txt"

/-! ### Rate limiter (`FathomClient._throttle`, `fathom_client.py`)

The wall clock is modelled as a rational number of seconds; `time.sleep`
advances it by exactly the requested amount; the state of the limiter is
the `_request_times` list, kept in call order (hence ascending). -/

/-- Result of one `_throttle()` call: the clock after the call (equal to
the clock before plus the slept duration), the new `_request_times` list,
and the slept duration (`0` when the call did not block). -/
structure ThrottleResult where
  now : ℚ
  times : List ℚ
  slept : ℚ
deriving DecidableEq

/-- The pruning comprehension
`[t for t in self._request_times if now - t < window]` with `window = 60`. -/
def inWindow (now : ℚ) (ts : List ℚ) : List ℚ :=
  ts.filter (fun t => now - t < 60)

/-- `FathomClient._throttle`: prune entries older than the 60-second
window; if at least `max_requests = 50` remain, sleep
`window - (now - oldest) + 2` seconds and prune again; finally append the
current time. -/
def throttle (now0 : ℚ) (ts : List ℚ) : ThrottleResult :=
  let ts1 := inWindow now0 ts
  if 50 ≤ ts1.length then
    let oldest := ts1.headI
    let sleep_for := 60 - (now0 - oldest) + 2
    if 0 < sleep_for then
      let now1 := now0 + sleep_for
      let ts2 := inWindow now1 ts1
      ⟨now1, ts2 ++ [now1], sleep_for⟩
    else ⟨now0, ts1 ++ [now0], 0⟩
  else ⟨now0, ts1 ++ [now0], 0⟩

/-! ### Paginated listing (`FathomClient.list_meetings`, `fathom_client.py`)

The upstream is modelled positionally: request number `k` (0-based) gets
the server's `k`-th response.  A response is either a decoded JSON body or
the page-level failure that `list_meetings` catches after `_fetch_page`
has exhausted its retries. -/

/-- Decoded body of one page response: a bare JSON array, a JSON object
(with the three candidate item-array keys and the `next_cursor` key, each
possibly absent), or any other JSON value. -/
inductive PageResp (α : Type) where
  | arr (items : List α)
  | obj (meetings items recordings : Option (List α)) (next_cursor : Option String)
  | other
deriving DecidableEq

/-- Outcome of `_fetch_page` as observed by the `try` in `list_meetings`:
a decoded body, or an exception after the per-page retry budget. -/
inductive FetchOutcome (α : Type) where
  | ok (resp : PageResp α)
  | failed
deriving DecidableEq

/-- The item-array extraction of `list_meetings`: a bare list is taken as
is; an object goes through the truthiness `or`-chain over the keys
`"meetings"`, `"items"`, `"recordings"` with default `[]`; anything else
yields no items. -/
def itemsOf {α : Type} : PageResp α → List α
  | .arr l => l
  | .obj m i r _ => pyOrList m (pyOrList i (pyOrList r []))
  | .other => []

/-- `data.get("next_cursor") if isinstance(data, dict) else None`. -/
def cursorOf {α : Type} : PageResp α → Option String
  | .obj _ _ _ c => c
  | _ => none

/-- Python truthiness of the cursor: `None` and `""` are falsy. -/
def truthyCursor : Option String → Bool
  | none => false
  | some s => !s.isEmpty

/-- The `while True` pagination loop of `list_meetings`, with explicit
fuel; `none` means the fuel ran out before the loop exited (the theorems
show any fuel beyond the stopping page suffices, which is the termination
statement).  Each iteration extends the accumulator with the page's items
and then breaks when the cursor is falsy or the page yielded no items; a
failed page breaks immediately, returning the items accumulated so far. -/
def list_meetings_go {α : Type} (server : Nat → FetchOutcome α) :
    Nat → Nat → List α → Option (List α)
  | 0, _, _ => none
  | fuel + 1, page, acc =>
    match server page with
    | .failed => some acc
    | .ok r =>
      let ms := itemsOf r
      if !truthyCursor (cursorOf r) || ms.isEmpty then some (acc ++ ms)
      else list_meetings_go server fuel (page + 1) (acc ++ ms)

/-- `FathomClient.list_meetings`, starting from the first page with an
empty accumulator. -/
def list_meetings {α : Type} (server : Nat → FetchOutcome α) (fuel : Nat) :
    Option (List α) :=
  list_meetings_go server fuel 0 []

/-- Items contributed by page `k` of the modelled upstream. -/
def pageItems {α : Type} (server : Nat → FetchOutcome α) (k : Nat) : List α :=
  match server k with
  | .ok r => itemsOf r
  | .failed => []

/-! ### Transcript fetch with retries (`FathomClient.get_transcript`)

`get_transcript` is decorated with
`retry(stop=stop_after_attempt(3), retry=retry_if_exception_type(requests.RequestException))`.
One attempt is modelled by an oracle from the attempt index to its
outcome. -/

/-- One entry of the decoded transcript array:
`{"speaker": {"display_name": ...}, "text": ..., "timestamp": ...}`, with
`none` marking an absent key (at either level for the speaker name). -/
structure TEntry where
  speaker_display_name : Option String
  text : Option String
  timestamp : Option String
deriving DecidableEq

/-- Outcome of a single un-retried HTTP attempt inside `get_transcript`:
a decoded JSON body (`some entries` iff the `"transcript"` key is
present), a `requests.HTTPError` from `raise_for_status` carrying the
status code, or another `requests.RequestException` (connection error,
timeout, ...). -/
inductive AttemptOutcome where
  | success (transcript : Option (List TEntry))
  | httpError (status : Nat)
  | connError
deriving DecidableEq

/-- Whether the exception of a failed attempt is an instance of
`requests.RequestException` — the tenacity retry predicate.
`requests.HTTPError` is a subclass of `requests.RequestException`, so it
satisfies the predicate too. -/
def isRequestException : AttemptOutcome → Bool
  | .success _ => false
  | .httpError _ => true
  | .connError => true

/-- What the decorated `get_transcript` call delivers to its caller:
a result, a directly re-raised exception (tenacity re-raises when the
retry predicate rejects the exception), or a `tenacity.RetryError`
wrapping the last attempt's exception after the attempt budget. -/
inductive CallResult where
  | ok (transcript : Option (List TEntry))
  | raised (e : AttemptOutcome)
  | retryError (last : AttemptOutcome)
deriving DecidableEq

/-- The tenacity driver: `left` attempts remain (including the current
one).  Returns the call result and the number of attempts performed. -/
def tenacity_go (oracle : Nat → AttemptOutcome) : Nat → Nat → CallResult × Nat
  | idx, 0 => (.retryError (oracle idx), idx)
  | idx, 1 =>
    match oracle idx with
    | .success d => (.ok d, idx + 1)
    | e => if isRequestException e then (.retryError e, idx + 1)
           else (.raised e, idx + 1)
  | idx, left + 2 =>
    match oracle idx with
    | .success d => (.ok d, idx + 1)
    | e => if isRequestException e then tenacity_go oracle (idx + 1) (left + 1)
           else (.raised e, idx + 1)

/-- `FathomClient.get_transcript` under `stop_after_attempt(3)`. -/
def get_transcript (oracle : Nat → AttemptOutcome) : CallResult × Nat :=
  tenacity_go oracle 0 3

/-- Whether the call delivered a directly raised (unwrapped) exception. -/
def raisesDirectly : CallResult → Bool
  | .raised _ => true
  | _ => false

/-- Outcome of `fathom_client.get_transcript(recording_id)` as dispatched
by the `except` clauses in `run_sync` (`sync.py`): the
`tenacity.RetryError` handler, the `requests.HTTPError` handler, the
outer generic `except Exception` handler, or a returned body. -/
inductive DetailResult where
  | retryErr
  | httpErr (status : Nat)
  | otherExc
  | ok (transcript : Option (List TEntry))
deriving DecidableEq

/-- How `run_sync`'s `except` ladder classifies what `get_transcript`
delivered. -/
def classifyCall : CallResult → DetailResult
  | .ok d => .ok d
  | .retryError _ => .retryErr
  | .raised (.httpError s) => .httpErr s
  | .raised _ => .otherExc

/-- Whether a detail outcome lands in `run_sync`'s `requests.HTTPError`
handler. -/
def isHttpBranch : DetailResult → Bool
  | .httpErr _ => true
  | _ => false

/-! ### The reconciliation loop (`sync.run_sync`, `sync.py`) -/

/-- One element of `meeting.get("calendar_invitees")`. -/
structure Invitee where
  name : Option String
  email : Option String
deriving DecidableEq

/-- The fields of a meeting object that `run_sync` and its helpers read.
`recording_id` holds the value of `str(meeting.get("recording_id", ""))`,
so a missing id is the empty string. -/
structure Meeting where
  recording_id : String
  title : Option String
  meeting_title : Option String
  recording_start_time : Option String
  recording_end_time : Option String
  scheduled_start_time : Option String
  created_at : Option String
  calendar_invitees : List Invitee
deriving DecidableEq

/-- The separator line `"=" * 50`. -/
def eqBar : String := String.mk (List.replicate 50 '=')

/-- `sync.format_transcript`: header block, then one line per entry, or an
explicit placeholder when the decoded body has no `"transcript"` key. -/
def format_transcript (title : String) (m : Meeting)
    (tdata : Option (List TEntry)) : String :=
  let start_time := pyOrStr m.recording_start_time (pyOrStr m.created_at "")
  let end_time := pyOrStr m.recording_end_time ""
  let participants := m.calendar_invitees.map
    (fun i => pyOrStr i.name (pyOrStr i.email "Unknown"))
  let l1 := [eqBar, "Meeting: " ++ title, "Date: " ++ start_time]
  let l2 := if !start_time.isEmpty && !end_time.isEmpty then
      l1 ++ ["Recording: " ++ start_time ++ " to " ++ end_time] else l1
  let l3 := if !participants.isEmpty then
      l2 ++ ["Participants: " ++ String.intercalate ", " participants] else l2
  let l4 := l3 ++ [eqBar, ""]
  let body := match tdata with
    | some entries => entries.map (fun e =>
        "[" ++ e.timestamp.getD "" ++ "] " ++
          e.speaker_display_name.getD "Unknown" ++ ": " ++ e.text.getD "")
    | none => ["[No transcript content available]"]
  String.intercalate "\n" (l4 ++ body ++ [""])

/-- `sync.extract_call_date`.  The `datetime.fromisoformat` plus
`strftime` reformatting is the external datetime library, abstracted as
`parse_fmt`; `none` models the `ValueError` path, in which the raw string
is returned unchanged.  `now_display` stands for
`datetime.now().strftime("%Y-%m-%d %H:%M")`. -/
def extract_call_date (parse_fmt : String → Option String)
    (now_display : String) (m : Meeting) : String :=
  let raw := pyOrStr m.recording_start_time
    (pyOrStr m.scheduled_start_time (pyOrStr m.created_at ""))
  if raw.isEmpty then now_display
  else match parse_fmt raw with
    | some s => s
    | none => raw

/-- Outcome of `google_client.upload_transcript_to_drive`: the returned
metadata's `id` and `webViewLink` fields (possibly empty strings, via
`.get(..., "")`), or an exception. -/
inductive UploadResult where
  | ok (fileId : String) (link : String)
  | exc
deriving DecidableEq

/-- Outcome of `google_client.append_to_sheet`: success or an exception. -/
inductive AppendResult where
  | ok
  | exc
deriving DecidableEq

/-- The external collaborators and clocks that one `run_sync` cycle
consults, as deterministic oracles: the transcript fetch outcome per
recording id, the Drive upload per (filename, content), the Sheet append
per (date, link), the datetime reformatting, and the two renderings of
"now" (`datetime.now().isoformat()` and the display format). -/
structure SyncEnv where
  detail : String → DetailResult
  upload : String → String → UploadResult
  sheet : String → String → AppendResult
  parse_fmt : String → Option String
  now_iso : String
  now_display : String

/-- Predicate: the detail outcome is a body whose transcript array exists
and is nonempty (the `has_content` condition of `run_sync`). -/
def detailOk : DetailResult → Bool
  | .ok (some (_ :: _)) => true
  | _ => false

/-- Predicate: the upload did not raise. -/
def uploadOk : UploadResult → Bool
  | .ok _ _ => true
  | .exc => false

/-- Log of the externally visible side effects of a cycle: recording ids
whose transcript was fetched, (recording id, filename) pairs uploaded to
Drive, and (date, link) rows appended to the Sheet. -/
structure Effects where
  fetched : List String
  uploaded : List (String × String)
  appended : List (String × String)
deriving DecidableEq

/-- No side effects yet. -/
def noEffects : Effects := ⟨[], [], []⟩

/-- The `stats` dict of `run_sync`. -/
structure Stats where
  new : Nat
  skipped : Nat
  errors : Nat
deriving DecidableEq

/-- Result of one cycle: the final counters, the final StateStore mapping,
and the side-effect log. -/
structure CycleResult where
  stats : Stats
  state : StateMap
  eff : Effects
deriving DecidableEq

/-- The body of `run_sync`'s `for meeting in meetings` loop for one
meeting, acting on the counters, the state mapping and the effect log.
Mirrors `sync.py` line by line: an empty id `continue`s without touching
any counter; an already-processed id bumps `skipped`; a `RetryError` or
`HTTPError` from the fetch marks the id with the `"N/A"` sentinel and
bumps `errors`; a fetched body without a nonempty transcript bumps
`errors` without marking; otherwise the document is formatted, uploaded
and indexed, and the id is marked with the returned file id; any other
exception (fetch, upload or append) is caught at the item boundary and
bumps `errors`. -/
def process_meeting (env : SyncEnv) (acc : Stats × StateMap × Effects)
    (m : Meeting) : Stats × StateMap × Effects :=
  let stats := acc.1
  let st := acc.2.1
  let eff := acc.2.2
  let rid := m.recording_id
  if rid.isEmpty then acc
  else if is_processed st rid then
    (⟨stats.new, stats.skipped + 1, stats.errors⟩, st, eff)
  else
    let title := pyOrStr m.title (pyOrStr m.meeting_title "Untitled Meeting")
    let eff1 : Effects := ⟨eff.fetched ++ [rid], eff.uploaded, eff.appended⟩
    match env.detail rid with
    | .retryErr =>
        (⟨stats.new, stats.skipped, stats.errors + 1⟩,
          mark_processed st rid "N/A" env.now_iso, eff1)
    | .httpErr _ =>
        (⟨stats.new, stats.skipped, stats.errors + 1⟩,
          mark_processed st rid "N/A" env.now_iso, eff1)
    | .otherExc =>
        (⟨stats.new, stats.skipped, stats.errors + 1⟩, st, eff1)
    | .ok tdata =>
      match tdata with
      | some (entry :: rest) =>
          let text := format_transcript title m (some (entry :: rest))
          let filename := make_filename rid title
          match env.upload filename text with
          | .exc => (⟨stats.new, stats.skipped, stats.errors + 1⟩, st, eff1)
          | .ok fid link =>
            let eff2 : Effects :=
              ⟨eff1.fetched, eff1.uploaded ++ [(rid, filename)], eff1.appended⟩
            let call_date := extract_call_date env.parse_fmt env.now_display m
            match env.sheet call_date link with
            | .exc => (⟨stats.new, stats.skipped, stats.errors + 1⟩, st, eff2)
            | .ok =>
                (⟨stats.new + 1, stats.skipped, stats.errors⟩,
                  mark_processed st rid fid env.now_iso,
                  ⟨eff2.fetched, eff2.uploaded, eff2.appended ++ [(call_date, link)]⟩)
      | _ => (⟨stats.new, stats.skipped, stats.errors + 1⟩, st, eff1)

/-- One `run_sync` cycle over an already-listed meeting set, starting from
the given StateStore contents.  (The early `return` on an empty meeting
list produces the same zero counters as folding over the empty list.) -/
def run_sync (st0 : StateMap) (meetings : List Meeting) (env : SyncEnv) :
    CycleResult :=
  let r := meetings.foldl (process_meeting env) (⟨0, 0, 0⟩, st0, noEffects)
  ⟨r.1, r.2.1, r.2.2⟩

/-- A concrete environment in which every fetch succeeds with one
transcript entry and both collaborators succeed; used by witnesses. -/
def envHappy : SyncEnv :=
  ⟨fun _ => .ok (some [⟨some "S", some "hello", some "00:00:01"⟩]),
   fun _ _ => .ok "fid1" "link1",
   fun _ _ => .ok,
   fun _ => none,
   "2024-01-01T00:00:00",
   "2024-01-01 00:00"⟩

/-- A concrete environment in which every fetch returns a body whose
transcript array is present but empty; used by witnesses. -/
def envEmptyTranscript : SyncEnv :=
  ⟨fun _ => .ok (some []),
   fun _ _ => .exc,
   fun _ _ => .exc,
   fun _ => none,
   "2024-01-01T00:00:00",
   "2024-01-01 00:00"⟩

/-- A concrete meeting with a missing recording id; used by the C5
counterexample. -/
def meetingNoId : Meeting := ⟨"", some "Ghost", none, none, none, none, none, []⟩

/-- A concrete meeting with id `"77"`; used by witnesses. -/
def meeting77 : Meeting :=
  ⟨"77", some "Standup", none, none, none, none, none, []⟩

/-! ### Helper lemmas for the state store and filenames -/

theorem lookup_set (st : StateMap) (k j : String) (r : SyncRecord) :
    lookupRec (setRec st k r) j = if k = j then some r else lookupRec st j := by
  induction st with
  | nil =>
    simp only [setRec, lookupRec]
  | cons p rest ih =>
    obtain ⟨a, b⟩ := p
    by_cases hak : a = k
    · subst hak
      simp only [setRec, if_pos rfl, lookupRec]
      by_cases haj : a = j
      · simp [haj]
      · simp [haj]
    · simp only [setRec, if_neg hak, lookupRec]
      by_cases haj : a = j
      · subst haj
        have : ¬ k = a := fun h => hak h.symm
        simp [this]
      · simp [haj, ih]

theorem is_processed_set (st : StateMap) (k x fid ts : String) :
    is_processed (mark_processed st k fid ts) x =
      if k = x then true else is_processed st x := by
  simp only [is_processed, mark_processed, lookup_set]
  by_cases h : k = x <;> simp [h]

theorem is_processed_mark_self (st : StateMap) (k fid ts : String) :
    is_processed (mark_processed st k fid ts) k = true := by
  simp [is_processed_set]

theorem is_processed_mark_mono (st : StateMap) (k x fid ts : String)
    (h : is_processed st x = true) :
    is_processed (mark_processed st k fid ts) x = true := by
  rw [is_processed_set]
  by_cases hk : k = x <;> simp [hk, h]

theorem is_processed_mark_other (st : StateMap) (k x fid ts : String)
    (h : ¬ k = x) :
    is_processed (mark_processed st k fid ts) x = is_processed st x := by
  simp [is_processed_set, h]

/-- Splitting a character list at the first underscore is unambiguous when
the left part contains no underscore. -/
theorem underscore_split_inj (a : List Char) : ∀ (b u v : List Char),
    '_' ∉ a → '_' ∉ b → a ++ '_' :: u = b ++ '_' :: v → a = b := by
  induction a with
  | nil =>
    intro b u v _ hb h
    cases b with
    | nil => rfl
    | cons c bt =>
      exfalso
      simp only [List.nil_append, List.cons_append, List.cons.injEq] at h
      exact hb (h.1 ▸ List.mem_cons_self _ _)
  | cons c ct ih =>
    intro b u v ha hb h
    cases b with
    | nil =>
      exfalso
      simp only [List.cons_append, List.nil_append, List.cons.injEq] at h
      exact ha (h.1 ▸ List.mem_cons_self _ _)
    | cons d dt =>
      simp only [List.cons_append, List.cons.injEq] at h
      have ha' : '_' ∉ ct := fun hm => ha (List.mem_cons_of_mem _ hm)
      have hb' : '_' ∉ dt := fun hm => hb (List.mem_cons_of_mem _ hm)
      rw [h.1, ih dt u v ha' hb' h.2]

theorem make_filename_data (i t : String) :
    (make_filename i t).data = i.data ++ '_' :: (safe_title t ++ ".txt".data) := by
  simp [make_filename, String.data_append]

/-! ### Claim C8 — StateStore round trip -/

/-- Claim C8: for every id recorded via `mark_processed`, after the
persisted snapshot is reloaded via `load_state`, `is_processed` is true;
and every id already processed before the marking survives the round trip
as well. -/
theorem c8_roundtrip (st : StateMap) (i x fid ts : String) :
    is_processed (load_state (save_state (mark_processed st i fid ts))) i = true
    ∧ (is_processed st x = true →
        is_processed (load_state (save_state (mark_processed st i fid ts))) x = true) := by
  constructor
  · simp [load_state, save_state, is_processed_mark_self]
  · intro hx
    simp only [load_state, save_state]
    exact is_processed_mark_mono st i x fid ts hx

/-- Witness for C8 at concrete inputs. -/
theorem c8_roundtrip_witness :
    is_processed (load_state (save_state
      (mark_processed [("7", ⟨"d1", "t1"⟩)] "42" "d2" "t2"))) "42" = true
    ∧ is_processed (load_state (save_state
      (mark_processed [("7", ⟨"d1", "t1"⟩)] "42" "d2" "t2"))) "7" = true := by
  refine ⟨(c8_roundtrip [("7", ⟨"d1", "t1"⟩)] "42" "7" "d2" "t2").1, ?_⟩
  exact (c8_roundtrip [("7", ⟨"d1", "t1"⟩)] "42" "7" "d2" "t2").2 (by decide)

/-! ### Claim C9 — filename generation -/

/-- Counterexample for C9: the function is not collision-free across
arbitrary distinct ids — ids `"1_2"` and `"1"` with titles `"a"` and
`"2 a"` produce the same filename — and the cleaning steps applied in the
exact order the claim lists them (replace spaces before trimming) give a
different result than the code on the title `" a"`. -/
theorem c9_counterexample :
    make_filename "1_2" "a" = make_filename "1" "2 a"
    ∧ ("1_2" : String) ≠ "1"
    ∧ make_filename "1" " a" = "1_a.txt"
    ∧ claim_order_filename "1" " a" = "1__a.txt" := by
  refine ⟨?_, by decide, ?_, ?_⟩ <;> decide

/-- Claim C9 as amended: `make_filename` keeps alphanumerics and spaces,
trims, replaces spaces with underscores, defaults to `"untitled"`, and
produces `id ++ "_" ++ safe ++ ".txt"`; the two concrete examples hold; it
is a function (hence deterministic); and it is collision-free across
distinct ids provided the ids contain no underscore. -/
theorem c9_amended :
    make_filename "42" "Q1 Planning!" = "42_Q1_Planning.txt"
    ∧ make_filename "7" "" = "7_untitled.txt"
    ∧ (∀ i t, make_filename i t = i ++ "_" ++ String.mk (safe_title t) ++ ".txt")
    ∧ (∀ i1 i2 t1 t2 : String, '_' ∉ i1.data → '_' ∉ i2.data →
        make_filename i1 t1 = make_filename i2 t2 → i1 = i2) := by
  refine ⟨by decide, by decide, fun i t => rfl, ?_⟩
  intro i1 i2 t1 t2 h1 h2 h
  have hd := congrArg String.data h
  rw [make_filename_data, make_filename_data] at hd
  have : i1.data = i2.data := underscore_split_inj i1.data i2.data _ _ h1 h2 hd
  cases i1 with
  | mk d1 =>
    cases i2 with
    | mk d2 => exact congrArg String.mk this

/-- Witness for C9 at concrete inputs: the injectivity part applied to
underscore-free ids. -/
theorem c9_amended_witness : ("12" : String) = "12" :=
  c9_amended.2.2.2 "12" "12" "A b" "A b" (by decide) (by decide) rfl

/-! ### Helper lemmas for the rate limiter -/

theorem inWindow_append (now : ℚ) (a b : List ℚ) :
    inWindow now (a ++ b) = inWindow now a ++ inWindow now b := by
  simp [inWindow, List.filter_append]

theorem inWindow_idem (now : ℚ) (l : List ℚ) :
    inWindow now (inWindow now l) = inWindow now l := by
  induction l with
  | nil => rfl
  | cons a t ih =>
    by_cases h : now - a < 60 <;>
      simp [inWindow, List.filter_cons, h] at ih ⊢

theorem inWindow_self (now : ℚ) : inWindow now [now] = [now] := by
  simp only [inWindow, List.filter_cons, List.filter_nil]
  norm_num

theorem inWindow_headI_recent (now : ℚ) (ts : List ℚ)
    (hne : inWindow now ts ≠ []) :
    now - (inWindow now ts).headI < 60 := by
  have hmem : (inWindow now ts).headI ∈ inWindow now ts := by
    cases hc : inWindow now ts with
    | nil => exact absurd hc hne
    | cons a l => exact List.mem_cons_self _ _
  rw [inWindow] at hmem
  have := List.of_mem_filter hmem
  simpa using this

/-- Evaluation of `_throttle` when fewer than 50 recorded timestamps lie in
the window: no sleep, prune and append. -/
theorem throttle_nonblock (now : ℚ) (ts : List ℚ)
    (h : (inWindow now ts).length < 50) :
    throttle now ts = ⟨now, inWindow now ts ++ [now], 0⟩ := by
  simp only [throttle]
  rw [if_neg (by omega : ¬ 50 ≤ (inWindow now ts).length)]

/-- Evaluation of `_throttle` when 50 or more recorded timestamps lie in
the window: sleep `60 - (now - oldest) + 2` (always positive, since the
oldest in-window entry is less than 60 seconds old), prune again at the
new clock, append the new clock. -/
theorem throttle_block (now : ℚ) (ts : List ℚ)
    (h : 50 ≤ (inWindow now ts).length) :
    throttle now ts =
      ⟨now + (60 - (now - (inWindow now ts).headI) + 2),
       inWindow (now + (60 - (now - (inWindow now ts).headI) + 2)) (inWindow now ts)
         ++ [now + (60 - (now - (inWindow now ts).headI) + 2)],
       60 - (now - (inWindow now ts).headI) + 2⟩ := by
  have hne : inWindow now ts ≠ [] := by
    intro hnil
    rw [hnil] at h
    simp at h
  have hrecent := inWindow_headI_recent now ts hne
  have hpos : 0 < 60 - (now - (inWindow now ts).headI) + 2 := by linarith
  simp only [throttle]
  rw [if_pos h, if_pos hpos]

/-! ### Claim C3 — throttle spacing -/

/-- Counterexample for C3: the limiter does not enforce any fixed positive
minimum inter-call spacing.  Two consecutive `throttle` calls on a fresh
limiter at time `0` both return immediately (`slept = 0`), so zero time
elapses between the first and second call — in particular less than the
spec's example spacing of 3 time units, and less than `(N-1) * s` for
every positive `s` with `N = 2`. -/
theorem c3_counterexample :
    throttle 0 [] = ⟨0, [0], 0⟩
    ∧ throttle 0 [0] = ⟨0, [0, 0], 0⟩ := by
  have h0 : inWindow 0 [] = [] := rfl
  have h1 : inWindow 0 [0] = [0] := by
    simp only [inWindow, List.filter_cons, List.filter_nil]
    norm_num
  constructor
  · rw [throttle_nonblock 0 [] (by rw [h0]; norm_num), h0]
    rfl
  · rw [throttle_nonblock 0 [0] (by rw [h1]; norm_num), h1]
    rfl

/-- Claim C3 as amended: `_throttle` is a sliding-window limiter, not a
fixed-spacing one.  The first call never blocks; no call blocks while
fewer than 50 recorded timestamps fall inside the trailing 60-second
window; when 50 or more do, the call sleeps a positive duration that lands
the clock exactly 62 seconds past the oldest in-window timestamp; and for
an ascending history with at most 50 in-window entries, the call leaves at
most 50 in-window entries. -/
theorem c3_amended (now : ℚ) (ts : List ℚ) :
    throttle now [] = ⟨now, [now], 0⟩
    ∧ ((inWindow now ts).length < 50 →
        throttle now ts = ⟨now, inWindow now ts ++ [now], 0⟩)
    ∧ (50 ≤ (inWindow now ts).length →
        0 < (throttle now ts).slept
        ∧ (throttle now ts).now = now + (throttle now ts).slept
        ∧ (throttle now ts).now = (inWindow now ts).headI + 62)
    ∧ (List.Sorted (· ≤ ·) ts → (inWindow now ts).length ≤ 50 →
        (inWindow (throttle now ts).now (throttle now ts).times).length ≤ 50) := by
  refine ⟨?_, throttle_nonblock now ts, ?_, ?_⟩
  · rw [throttle_nonblock now [] (by simp [inWindow])]
    rfl
  · intro hge
    have hne : inWindow now ts ≠ [] := by
      intro hnil
      rw [hnil] at hge
      simp at hge
    have hrecent := inWindow_headI_recent now ts hne
    rw [throttle_block now ts hge]
    refine ⟨?_, rfl, ?_⟩
    · show 0 < 60 - (now - (inWindow now ts).headI) + 2
      linarith
    · show now + (60 - (now - (inWindow now ts).headI) + 2)
        = (inWindow now ts).headI + 62
      ring
  · intro _ hle
    by_cases hge : 50 ≤ (inWindow now ts).length
    · -- blocking case: the clock lands 62 s past the oldest entry, which is
      -- therefore pruned before the new timestamp is appended.
      have hne : inWindow now ts ≠ [] := by
        intro hnil
        rw [hnil] at hge
        simp at hge
      rw [throttle_block now ts hge]
      set now1 := now + (60 - (now - (inWindow now ts).headI) + 2) with hnow1
      obtain ⟨a, l, hcons⟩ : ∃ a l, inWindow now ts = a :: l := by
        cases hc : inWindow now ts with
        | nil => exact absurd hc hne
        | cons a l => exact ⟨a, l, rfl⟩
      have ha : (inWindow now ts).headI = a := by rw [hcons]; rfl
      have hnow1' : now1 = a + 62 := by rw [hnow1, ha]; ring
      have hlen_l : l.length ≤ 49 := by
        have h50 : (inWindow now ts).length ≤ 50 := hle
        rw [hcons] at h50
        simpa using h50
      have hdrop : inWindow now1 (inWindow now ts) = inWindow now1 l := by
        rw [hcons, inWindow, List.filter_cons]
        have hout : ¬ (now1 - a < 60) := by
          rw [hnow1']
          intro hcontra
          linarith
        simp only [inWindow, decide_eq_true_eq]
        rw [if_neg hout]
      have hlen2 : (inWindow now1 l).length ≤ 49 := by
        rw [inWindow]
        exact le_trans (List.length_filter_le _ _) hlen_l
      rw [inWindow_append, hdrop, inWindow_idem, inWindow_self]
      simp only [List.length_append, List.length_singleton]
      omega
    · have hlt : (inWindow now ts).length < 50 := by omega
      rw [throttle_nonblock now ts hlt]
      rw [inWindow_append, inWindow_idem, inWindow_self]
      simp only [List.length_append, List.length_singleton]
      omega

/-- Witness for C3 at concrete inputs: a fresh limiter never blocks, and a
full window of 50 timestamps at time 0 forces a positive sleep landing the
clock 62 seconds past the oldest entry. -/
theorem c3_amended_witness :
    throttle 3 [] = ⟨3, [3], 0⟩
    ∧ 0 < (throttle 0 (List.replicate 50 0)).slept
    ∧ (throttle 0 (List.replicate 50 0)).now =
        (inWindow 0 (List.replicate 50 0)).headI + 62
    ∧ (inWindow (throttle 0 []).now (throttle 0 []).times).length ≤ 50 := by
  have hwin : inWindow 0 (List.replicate 50 (0 : ℚ)) = List.replicate 50 0 := by
    rw [inWindow]
    rw [List.filter_eq_self]
    intro a ha
    have := List.eq_of_mem_replicate ha
    subst this
    norm_num
  have h50 : 50 ≤ (inWindow 0 (List.replicate 50 (0 : ℚ))).length := by
    rw [hwin, List.length_replicate]
  refine ⟨(c3_amended 3 []).1, ((c3_amended 0 (List.replicate 50 0)).2.2.1 h50).1,
    ((c3_amended 0 (List.replicate 50 0)).2.2.1 h50).2.2, ?_⟩
  exact (c3_amended 0 []).2.2.2 (by simp) (by simp [inWindow])

/-! ### Helper lemmas for pagination -/

/-- One-step evaluation of the pagination loop on a successful page. -/
theorem list_meetings_go_ok {α : Type} (server : Nat → FetchOutcome α)
    (fuel page : Nat) (acc : List α) (r : PageResp α)
    (hr : server page = .ok r) :
    list_meetings_go server (fuel + 1) page acc =
      if !truthyCursor (cursorOf r) || (itemsOf r).isEmpty then
        some (acc ++ itemsOf r)
      else list_meetings_go server fuel (page + 1) (acc ++ itemsOf r) := by
  simp only [list_meetings_go, hr]

/-- One-step evaluation of the pagination loop on a failed page. -/
theorem list_meetings_go_failed {α : Type} (server : Nat → FetchOutcome α)
    (fuel page : Nat) (acc : List α) (hr : server page = .failed) :
    list_meetings_go server (fuel + 1) page acc = some acc := by
  simp only [list_meetings_go, hr]

/-- Running the pagination loop across a block of `n` pages that each
yield items and a truthy cursor just shifts the page index and extends the
accumulator with those pages' items, in page order. -/
theorem list_meetings_go_shift {α : Type} (server : Nat → FetchOutcome α) :
    ∀ (n m page : Nat) (acc : List α),
      (∀ k, k < n → ∃ r, server (page + k) = .ok r ∧ itemsOf r ≠ [] ∧
        truthyCursor (cursorOf r) = true) →
      list_meetings_go server (n + (m + 1)) page acc =
        list_meetings_go server (m + 1) (page + n)
          (acc ++ ((List.range n).map (fun k => pageItems server (page + k))).join) := by
  intro n
  induction n with
  | zero =>
    intro m page acc _
    simp
  | succ n ih =>
    intro m page acc h
    obtain ⟨r, hr, hne, hcur⟩ := h 0 (Nat.succ_pos n)
    rw [Nat.add_zero] at hr
    have hfuel : (n + 1) + (m + 1) = (n + (m + 1)) + 1 := by omega
    rw [hfuel]
    have hcond : (!truthyCursor (cursorOf r) || (itemsOf r).isEmpty) = false := by
      rw [hcur]
      cases hi : itemsOf r with
      | nil => exact absurd hi hne
      | cons x xs => rfl
    rw [list_meetings_go_ok server (n + (m + 1)) page acc r hr, hcond]
    simp only [Bool.false_eq_true, if_false]
    have hshift : ∀ k, k < n → ∃ r', server (page + 1 + k) = .ok r' ∧
        itemsOf r' ≠ [] ∧ truthyCursor (cursorOf r') = true := by
      intro k hk
      have := h (k + 1) (by omega)
      rwa [show page + (k + 1) = page + 1 + k by omega] at this
    rw [ih m (page + 1) (acc ++ itemsOf r) hshift]
    have hpage : page + 1 + n = page + (n + 1) := by omega
    rw [hpage]
    have hacc : acc ++ itemsOf r ++
        ((List.range n).map (fun k => pageItems server (page + 1 + k))).join =
        acc ++ ((List.range (n + 1)).map (fun k => pageItems server (page + k))).join := by
      rw [List.range_succ_eq_map]
      simp only [List.map_cons, List.map_map, List.join_cons, List.append_assoc]
      have hfun : ((fun k => pageItems server (page + k)) ∘ Nat.succ)
          = (fun k => pageItems server (page + 1 + k)) := by
        funext k
        simp only [Function.comp]
        rw [show page + (k + 1) = page + 1 + k by omega]
      rw [hfun]
      have h0 : pageItems server (page + 0) = itemsOf r := by
        rw [Nat.add_zero, pageItems, hr]
      rw [h0]
    rw [hacc]

/-! ### Claim C6 — pagination termination and concatenation -/

/-- Claim C6: if pages `0, ..., n-1` each yield items and a truthy cursor
and page `n` yields no items or no truthy cursor, then `list_meetings`
returns — for every fuel beyond `n`, hence terminating — the concatenation
of the items of pages `0, ..., n` in page order. -/
theorem c6_pagination {α : Type} (server : Nat → FetchOutcome α) (n fuel : Nat)
    (hcont : ∀ k, k < n → ∃ r, server k = .ok r ∧ itemsOf r ≠ [] ∧
      truthyCursor (cursorOf r) = true)
    (hstop : ∃ r, server n = .ok r ∧
      (itemsOf r = [] ∨ truthyCursor (cursorOf r) = false))
    (hfuel : n < fuel) :
    list_meetings server fuel =
      some (((List.range (n + 1)).map (pageItems server)).join) := by
  obtain ⟨mm, hm⟩ := Nat.exists_eq_add_of_lt hfuel
  subst hm
  rw [list_meetings]
  rw [show n + mm + 1 = n + (mm + 1) from by omega]
  rw [list_meetings_go_shift server n mm 0 [] (by simpa using hcont)]
  obtain ⟨r, hr, hbreak⟩ := hstop
  rw [Nat.zero_add]
  have hcond : (!truthyCursor (cursorOf r) || (itemsOf r).isEmpty) = true := by
    rcases hbreak with hb | hb
    · rw [hb]
      simp
    · rw [hb]
      simp
  rw [list_meetings_go_ok server mm n _ r hr, hcond]
  simp only [if_true]
  rw [List.range_succ]
  simp only [List.map_append, List.map_cons, List.map_nil, List.join_append,
    List.join_cons, List.join_nil, List.nil_append, List.append_nil]
  have hpn : pageItems server n = itemsOf r := by rw [pageItems, hr]
  rw [hpn]
  simp [Nat.zero_add, List.join]

/-- Witness for C6: a two-page upstream — page 0 yields `[1, 2]` with a
cursor, page 1 yields no items — concatenates to `[1, 2]`. -/
theorem c6_pagination_witness :
    list_meetings
      (fun k => if k = 0 then .ok (.obj (some [1, 2]) none none (some "c"))
                else .ok (.arr ([] : List Nat))) 3 =
      some (((List.range 2).map (pageItems
        (fun k => if k = 0 then .ok (.obj (some [1, 2]) none none (some "c"))
                  else .ok (.arr ([] : List Nat))))).join) := by
  apply c6_pagination _ 1 3
  · intro k hk
    have hk0 : k = 0 := by omega
    subst hk0
    exact ⟨.obj (some [1, 2]) none none (some "c"), rfl, by decide, rfl⟩
  · exact ⟨.arr [], rfl, Or.inl rfl⟩
  · omega

/-! ### Claim C7 — partial results on page failure -/

/-- Claim C7: if pages `0, ..., n-1` each yield items and a truthy cursor
and the request for page `n` fails after exhausting its retries,
`list_meetings` does not propagate the error: it returns (as a non-error
outcome) exactly the concatenation of the items of the earlier successful
pages, possibly the empty list. -/
theorem c7_partial {α : Type} (server : Nat → FetchOutcome α) (n fuel : Nat)
    (hcont : ∀ k, k < n → ∃ r, server k = .ok r ∧ itemsOf r ≠ [] ∧
      truthyCursor (cursorOf r) = true)
    (hfail : server n = .failed)
    (hfuel : n < fuel) :
    list_meetings server fuel =
      some (((List.range n).map (pageItems server)).join) := by
  obtain ⟨mm, hm⟩ := Nat.exists_eq_add_of_lt hfuel
  subst hm
  rw [list_meetings]
  rw [show n + mm + 1 = n + (mm + 1) from by omega]
  rw [list_meetings_go_shift server n mm 0 [] (by simpa using hcont)]
  rw [Nat.zero_add]
  rw [list_meetings_go_failed server mm n _ hfail]
  rw [List.nil_append]
  simp [Nat.zero_add, List.join]

/-- Witness for C7: page 0 succeeds with `[5]` and a cursor, page 1 fails
after retries; the call returns `[5]`. -/
theorem c7_partial_witness :
    list_meetings
      (fun k => if k = 0 then .ok (.obj (some [5]) none none (some "c"))
                else (.failed : FetchOutcome Nat)) 9 =
      some (((List.range 1).map (pageItems
        (fun k => if k = 0 then .ok (.obj (some [5]) none none (some "c"))
                  else (.failed : FetchOutcome Nat)))).join) := by
  apply c7_partial _ 1 9
  · intro k hk
    have hk0 : k = 0 := by omega
    subst hk0
    exact ⟨.obj (some [5]) none none (some "c"), rfl, by decide, rfl⟩
  · rfl
  · omega

/-! ### Claim C10 — truthiness-based wrapper-key chain -/

/-- Claim C10: the candidate wrapper keys are combined with a Python
truthiness `or`-chain, so a page object whose `"meetings"` key maps to an
empty list falls through to the `"items"` key — `{"meetings": [],
"items": [x, ...]}` decodes to `[x, ...]`, and in a single-page listing
the call returns exactly those items; a key holding the empty list
behaves exactly like an absent key; and a response that is neither a list
nor an object yields zero items for that page. -/
theorem c10_truthiness {α : Type} (x : α) (rest : List α) (c : Option String) :
    itemsOf (.obj (some []) (some (x :: rest)) none c) = x :: rest
    ∧ (∀ (i r : Option (List α)) (c' : Option String),
        itemsOf (.obj (some []) i r c') = itemsOf (.obj none i r c'))
    ∧ itemsOf (PageResp.other : PageResp α) = []
    ∧ list_meetings (fun _ => .ok (.obj (some []) (some [x]) none none)) 5 =
        some [x] := by
  refine ⟨rfl, fun i r c' => rfl, rfl, rfl⟩

/-! ### Claim C1 — retry classification of `get_transcript` -/

/-- Counterexample for C1: a definitive HTTP 404 is retried, not
surfaced.  Since `requests.HTTPError` is a subclass of
`requests.RequestException`, the tenacity predicate
`retry_if_exception_type(requests.RequestException)` retries it; an
upstream that answers 404 on every attempt consumes all 3 attempts and
the caller receives `tenacity.RetryError` — the same condition as
transport-retry exhaustion — rather than a directly raised `HTTPError`,
and `run_sync`'s dedicated `HTTPError` handler is not reached. -/
theorem c1_counterexample :
    get_transcript (fun _ => .httpError 404) = (.retryError (.httpError 404), 3)
    ∧ (get_transcript (fun _ => .httpError 404)).2 ≠ 1
    ∧ classifyCall (get_transcript (fun _ => .httpError 404)).1 = .retryErr := by
  refine ⟨rfl, by decide, rfl⟩

/-- Claim C1 as amended: HTTP error statuses are `RequestException`s and
therefore consume the same 3-attempt retry budget as transport failures;
after exhaustion the caller receives `RetryError` in both cases, with the
last attempt's exception (hence the status code) wrapped inside;
`get_transcript` never delivers a directly raised exception, so the
`except requests.HTTPError` branch of `run_sync` is unreachable. -/
theorem c1_amended (s : Nat) (oracle : Nat → AttemptOutcome) :
    get_transcript (fun _ => .httpError s) = (.retryError (.httpError s), 3)
    ∧ get_transcript (fun _ => .connError) = (.retryError .connError, 3)
    ∧ raisesDirectly (get_transcript oracle).1 = false
    ∧ isHttpBranch (classifyCall (get_transcript oracle).1) = false := by
  refine ⟨rfl, rfl, ?_, ?_⟩
  · have h : ∀ (left idx : Nat),
        raisesDirectly (tenacity_go oracle idx left).1 = false := by
      intro left
      induction left with
      | zero => intro idx; rfl
      | succ n ih =>
        intro idx
        cases n with
        | zero =>
          cases h0 : oracle idx <;>
            simp [tenacity_go, h0, isRequestException, raisesDirectly]
        | succ m =>
          cases h0 : oracle idx <;>
            simp [tenacity_go, h0, isRequestException, raisesDirectly] <;>
            exact ih (idx + 1)
    exact h 3 0
  · have h : ∀ (left idx : Nat),
        isHttpBranch (classifyCall (tenacity_go oracle idx left).1) = false := by
      intro left
      induction left with
      | zero => intro idx; rfl
      | succ n ih =>
        intro idx
        cases n with
        | zero =>
          cases h0 : oracle idx <;>
            simp [tenacity_go, h0, isRequestException, classifyCall, isHttpBranch]
        | succ m =>
          cases h0 : oracle idx <;>
            simp [tenacity_go, h0, isRequestException, classifyCall, isHttpBranch] <;>
            exact ih (idx + 1)
    exact h 3 0

/-! ### Helper lemmas for the reconciliation loop -/

/-- An item with an empty (missing) recording id is a complete no-op: no
counter, no state write, no side effect. -/
theorem pm_empty_id (env : SyncEnv) (s : Stats) (st : StateMap) (e : Effects)
    (m : Meeting) (he : m.recording_id.isEmpty = true) :
    process_meeting env (s, st, e) m = (s, st, e) := by
  simp [process_meeting, he]

/-- An already-processed item only bumps `skipped`. -/
theorem pm_already (env : SyncEnv) (s : Stats) (st : StateMap) (e : Effects)
    (m : Meeting) (he : m.recording_id.isEmpty = false)
    (hp : is_processed st m.recording_id = true) :
    process_meeting env (s, st, e) m =
      (⟨s.new, s.skipped + 1, s.errors⟩, st, e) := by
  simp [process_meeting, he, hp]

/-- Processing one item never removes an id from the state mapping. -/
theorem pm_state_mono (env : SyncEnv) (s : Stats) (st : StateMap) (e : Effects)
    (m : Meeting) (x : String) (hx : is_processed st x = true) :
    is_processed (process_meeting env (s, st, e) m).2.1 x = true := by
  cases he : m.recording_id.isEmpty with
  | true => rw [pm_empty_id env s st e m he]; exact hx
  | false =>
    cases hp : is_processed st m.recording_id with
    | true => rw [pm_already env s st e m he hp]; exact hx
    | false =>
      simp only [process_meeting, he, Bool.false_eq_true, if_false, hp]
      repeat' split
      all_goals
        first
          | exact hx
          | exact is_processed_mark_mono _ _ _ _ _ hx

/-- The fetched-id log grows by at most the current item's id. -/
theorem pm_fetched_shape (env : SyncEnv) (s : Stats) (st : StateMap)
    (e : Effects) (m : Meeting) :
    (process_meeting env (s, st, e) m).2.2.fetched = e.fetched
    ∨ (process_meeting env (s, st, e) m).2.2.fetched =
        e.fetched ++ [m.recording_id] := by
  cases he : m.recording_id.isEmpty with
  | true => rw [pm_empty_id env s st e m he]; exact Or.inl rfl
  | false =>
    cases hp : is_processed st m.recording_id with
    | true => rw [pm_already env s st e m he hp]; exact Or.inl rfl
    | false =>
      simp only [process_meeting, he, Bool.false_eq_true, if_false, hp]
      repeat' split
      all_goals exact Or.inr rfl

/-- The uploaded log grows by at most one pair keyed by the current item's
id. -/
theorem pm_uploaded_shape (env : SyncEnv) (s : Stats) (st : StateMap)
    (e : Effects) (m : Meeting) :
    (process_meeting env (s, st, e) m).2.2.uploaded = e.uploaded
    ∨ ∃ fn, (process_meeting env (s, st, e) m).2.2.uploaded =
        e.uploaded ++ [(m.recording_id, fn)] := by
  cases he : m.recording_id.isEmpty with
  | true => rw [pm_empty_id env s st e m he]; exact Or.inl rfl
  | false =>
    cases hp : is_processed st m.recording_id with
    | true => rw [pm_already env s st e m he hp]; exact Or.inl rfl
    | false =>
      simp only [process_meeting, he, Bool.false_eq_true, if_false, hp]
      repeat' split
      all_goals
        first
          | exact Or.inl rfl
          | exact Or.inr ⟨_, rfl⟩

/-- Processing one item neither fetches nor uploads an id that is already
in the state mapping. -/
theorem pm_no_touch (env : SyncEnv) (s : Stats) (st : StateMap) (e : Effects)
    (m : Meeting) (x : String) (hx : is_processed st x = true)
    (hf : x ∉ e.fetched) (hu : x ∉ e.uploaded.map Prod.fst) :
    x ∉ (process_meeting env (s, st, e) m).2.2.fetched
    ∧ x ∉ (process_meeting env (s, st, e) m).2.2.uploaded.map Prod.fst := by
  by_cases hrid : m.recording_id = x
  · subst hrid
    cases he : m.recording_id.isEmpty with
    | true => rw [pm_empty_id env s st e m he]; exact ⟨hf, hu⟩
    | false => rw [pm_already env s st e m he hx]; exact ⟨hf, hu⟩
  · constructor
    · rcases pm_fetched_shape env s st e m with h | h <;> rw [h]
      · exact hf
      · simp only [List.mem_append, List.mem_singleton]
        rintro (hmem | rfl)
        · exact hf hmem
        · exact hrid rfl
    · rcases pm_uploaded_shape env s st e m with h | ⟨fn, h⟩ <;> rw [h]
      · exact hu
      · simp only [List.map_append, List.map_cons, List.map_nil,
          List.mem_append, List.mem_singleton]
        rintro (hmem | rfl)
        · exact hu hmem
        · exact hrid rfl

/-- An unprocessed item with a nonempty id is always fetched, whatever the
fetch returns. -/
theorem pm_fetches (env : SyncEnv) (s : Stats) (st : StateMap) (e : Effects)
    (m : Meeting) (he : m.recording_id.isEmpty = false)
    (hp : is_processed st m.recording_id = false) :
    (process_meeting env (s, st, e) m).2.2.fetched =
      e.fetched ++ [m.recording_id] := by
  simp only [process_meeting, he, Bool.false_eq_true, if_false, hp]
  repeat' split
  all_goals rfl

/-- An unprocessed item whose fetch returns a present-but-empty transcript
array bumps `errors`, fetches, and leaves the state untouched. -/
theorem pm_empty_transcript (env : SyncEnv) (s : Stats) (st : StateMap)
    (e : Effects) (m : Meeting) (he : m.recording_id.isEmpty = false)
    (hp : is_processed st m.recording_id = false)
    (hd : env.detail m.recording_id = DetailResult.ok (some [])) :
    process_meeting env (s, st, e) m =
      (⟨s.new, s.skipped, s.errors + 1⟩, st,
        ⟨e.fetched ++ [m.recording_id], e.uploaded, e.appended⟩) := by
  simp [process_meeting, he, hp, hd]

/-- Processing any item leaves the processed-status of an id whose fetch
outcome is a present-but-empty transcript array unchanged. -/
theorem pm_state_empty_detail (env : SyncEnv) (s : Stats) (st : StateMap)
    (e : Effects) (m : Meeting) (x : String)
    (hd : env.detail x = DetailResult.ok (some [])) :
    is_processed (process_meeting env (s, st, e) m).2.1 x = is_processed st x := by
  cases he : m.recording_id.isEmpty with
  | true => rw [pm_empty_id env s st e m he]
  | false =>
    cases hp : is_processed st m.recording_id with
    | true => rw [pm_already env s st e m he hp]
    | false =>
      by_cases hrid : m.recording_id = x
      · subst hrid
        rw [pm_empty_transcript env s st e m he hp hd]
      · simp only [process_meeting, he, Bool.false_eq_true, if_false, hp]
        repeat' split
        all_goals
          first
            | rfl
            | exact is_processed_mark_other _ _ _ _ _ hrid

/-- Under a failure-free environment, processing an item with a nonempty
id leaves that id processed. -/
theorem pm_marks (env : SyncEnv) (s : Stats) (st : StateMap) (e : Effects)
    (m : Meeting) (he : m.recording_id.isEmpty = false)
    (hok : detailOk (env.detail m.recording_id) = true)
    (hup : ∀ fn txt, uploadOk (env.upload fn txt) = true)
    (hsheet : ∀ d l, env.sheet d l = AppendResult.ok) :
    is_processed (process_meeting env (s, st, e) m).2.1 m.recording_id = true := by
  cases hp : is_processed st m.recording_id with
  | true => rw [pm_already env s st e m he hp]; exact hp
  | false =>
    cases hd : env.detail m.recording_id with
    | retryErr => rw [hd] at hok; exact absurd hok (by simp [detailOk])
    | httpErr code => rw [hd] at hok; exact absurd hok (by simp [detailOk])
    | otherExc => rw [hd] at hok; exact absurd hok (by simp [detailOk])
    | ok t =>
      cases t with
      | none => rw [hd] at hok; exact absurd hok (by simp [detailOk])
      | some l =>
        cases l with
        | nil => rw [hd] at hok; exact absurd hok (by simp [detailOk])
        | cons entry tl =>
          have htitle :
              pyOrStr m.title (pyOrStr m.meeting_title "Untitled Meeting") =
              pyOrStr m.title (pyOrStr m.meeting_title "Untitled Meeting") := rfl
          cases hu : env.upload
              (make_filename m.recording_id
                (pyOrStr m.title (pyOrStr m.meeting_title "Untitled Meeting")))
              (format_transcript
                (pyOrStr m.title (pyOrStr m.meeting_title "Untitled Meeting"))
                m (some (entry :: tl))) with
          | exc =>
            have := hup
              (make_filename m.recording_id
                (pyOrStr m.title (pyOrStr m.meeting_title "Untitled Meeting")))
              (format_transcript
                (pyOrStr m.title (pyOrStr m.meeting_title "Untitled Meeting"))
                m (some (entry :: tl)))
            rw [hu] at this
            exact absurd this (by simp [uploadOk])
          | ok fid link =>
            have hs := hsheet
              (extract_call_date env.parse_fmt env.now_display m) link
            simp only [process_meeting, he, Bool.false_eq_true, if_false, hp,
              hd, hu, hs]
            exact is_processed_mark_self _ _ _ _

/-- State monotonicity across a whole fold of the loop body. -/
theorem foldl_state_mono (env : SyncEnv) (meetings : List Meeting) :
    ∀ (s : Stats) (st : StateMap) (e : Effects) (x : String),
      is_processed st x = true →
      is_processed ((meetings.foldl (process_meeting env) (s, st, e)).2.1) x = true := by
  induction meetings with
  | nil => intro s st e x hx; exact hx
  | cons m rest ih =>
    intro s st e x hx
    rw [List.foldl_cons]
    rcases hstep : process_meeting env (s, st, e) m with ⟨s', st', e'⟩
    have hx' : is_processed st' x = true := by
      have := pm_state_mono env s st e m x hx
      rw [hstep] at this
      exact this
    exact ih s' st' e' x hx'

/-- No-touch across a whole fold: a cycle never fetches or uploads an id
that was already in the state mapping when the cycle started. -/
theorem foldl_no_touch (env : SyncEnv) (meetings : List Meeting) :
    ∀ (s : Stats) (st : StateMap) (e : Effects) (x : String),
      is_processed st x = true →
      x ∉ e.fetched → x ∉ e.uploaded.map Prod.fst →
      x ∉ ((meetings.foldl (process_meeting env) (s, st, e)).2.2).fetched
      ∧ x ∉ ((meetings.foldl (process_meeting env) (s, st, e)).2.2).uploaded.map Prod.fst := by
  induction meetings with
  | nil => intro s st e x hx hf hu; exact ⟨hf, hu⟩
  | cons m rest ih =>
    intro s st e x hx hf hu
    rw [List.foldl_cons]
    rcases hstep : process_meeting env (s, st, e) m with ⟨s', st', e'⟩
    have hx' : is_processed st' x = true := by
      have := pm_state_mono env s st e m x hx
      rw [hstep] at this
      exact this
    have hfu' := pm_no_touch env s st e m x hx hf hu
    rw [hstep] at hfu'
    exact ih s' st' e' x hx' hfu'.1 hfu'.2

/-- Empty-transcript ids keep their processed-status across a whole fold. -/
theorem foldl_state_empty_detail (env : SyncEnv) (meetings : List Meeting)
    (x : String) (hd : env.detail x = DetailResult.ok (some [])) :
    ∀ (s : Stats) (st : StateMap) (e : Effects),
      is_processed ((meetings.foldl (process_meeting env) (s, st, e)).2.1) x =
        is_processed st x := by
  induction meetings with
  | nil => intro s st e; rfl
  | cons m rest ih =>
    intro s st e
    rw [List.foldl_cons]
    rcases hstep : process_meeting env (s, st, e) m with ⟨s', st', e'⟩
    have hkeep : is_processed st' x = is_processed st x := by
      have := pm_state_empty_detail env s st e m x hd
      rw [hstep] at this
      exact this
    rw [ih s' st' e', hkeep]

/-- Under a failure-free environment, every listed id with a nonempty
recording id ends the fold processed. -/
theorem foldl_marks (env : SyncEnv) (meetings : List Meeting)
    (hup : ∀ fn txt, uploadOk (env.upload fn txt) = true)
    (hsheet : ∀ d l, env.sheet d l = AppendResult.ok) :
    ∀ (s : Stats) (st : StateMap) (e : Effects),
      (∀ m ∈ meetings, m.recording_id.isEmpty = false ∧
        detailOk (env.detail m.recording_id) = true) →
      ∀ m ∈ meetings,
        is_processed ((meetings.foldl (process_meeting env) (s, st, e)).2.1)
          m.recording_id = true := by
  induction meetings with
  | nil => intro s st e _ m hm; exact absurd hm (List.not_mem_nil m)
  | cons m0 rest ih =>
    intro s st e hall m hm
    rw [List.foldl_cons]
    rcases hstep : process_meeting env (s, st, e) m0 with ⟨s', st', e'⟩
    rcases List.mem_cons.mp hm with rfl | htail
    · have h0 := hall m (List.mem_cons_self m rest)
      have hmk : is_processed st' m.recording_id = true := by
        have := pm_marks env s st e m h0.1 h0.2 hup hsheet
        rw [hstep] at this
        exact this
      exact foldl_state_mono env rest s' st' e' m.recording_id hmk
    · exact ih s' st' e'
        (fun m' hm' => hall m' (List.mem_cons_of_mem m0 hm')) m htail

/-- When every listed item is already processed (and has a nonempty id),
the fold only counts skips: no state change, no side effects. -/
theorem foldl_all_processed (env : SyncEnv) (meetings : List Meeting) :
    ∀ (s : Stats) (st : StateMap) (e : Effects),
      (∀ m ∈ meetings, m.recording_id.isEmpty = false ∧
        is_processed st m.recording_id = true) →
      meetings.foldl (process_meeting env) (s, st, e) =
        (⟨s.new, s.skipped + meetings.length, s.errors⟩, st, e) := by
  induction meetings with
  | nil =>
    intro s st e _
    simp
  | cons m0 rest ih =>
    intro s st e hall
    have h0 := hall m0 (List.mem_cons_self m0 rest)
    rw [List.foldl_cons, pm_already env s st e m0 h0.1 h0.2]
    rw [ih ⟨s.new, s.skipped + 1, s.errors⟩ st e
      (fun m' hm' => hall m' (List.mem_cons_of_mem m0 hm'))]
    have harith : s.skipped + 1 + rest.length = s.skipped + (rest.length + 1) := by
      omega
    simp [harith]

/-- Bridge between the claim-level `≠ ""` phrasing and the Boolean
`isEmpty` test of the code. -/
theorem isEmpty_false_of_ne (s : String) (h : s ≠ "") : s.isEmpty = false := by
  cases he : s.isEmpty
  · rfl
  · exact absurd (String.isEmpty_iff s |>.mp (by rw [he])) h

/-- Packaging of a fold computation into the `run_sync` result. -/
theorem run_sync_eq (st : StateMap) (meetings : List Meeting) (env : SyncEnv)
    (a : Stats) (b : StateMap) (c : Effects)
    (h : meetings.foldl (process_meeting env) (⟨0, 0, 0⟩, st, noEffects) = (a, b, c)) :
    run_sync st meetings env = ⟨a, b, c⟩ := by
  simp only [run_sync, h]

/-! ### Claim C2 — idempotence and never-reprocess invariant -/

/-- Claim C2: once an id is in the StateStore (with a real reference or
the `"N/A"` sentinel alike), no later cycle fetches its detail or uploads
it again; and after a cycle over items with nonempty ids under an
environment with no failures, a second cycle over the unchanged item set
(under any environment at all) yields `new = 0` and `errors = 0`, counts
every item as skipped, changes no state, and performs no side effect. -/
theorem c2_idempotence :
    (∀ (env : SyncEnv) (st : StateMap) (meetings : List Meeting) (x : String),
        is_processed st x = true →
        x ∉ (run_sync st meetings env).eff.fetched
        ∧ x ∉ (run_sync st meetings env).eff.uploaded.map Prod.fst)
    ∧ (∀ (env env2 : SyncEnv) (st0 : StateMap) (meetings : List Meeting),
        (∀ m ∈ meetings, m.recording_id ≠ "" ∧
          detailOk (env.detail m.recording_id) = true) →
        (∀ fn txt, uploadOk (env.upload fn txt) = true) →
        (∀ d l, env.sheet d l = AppendResult.ok) →
        run_sync (run_sync st0 meetings env).state meetings env2 =
          ⟨⟨0, meetings.length, 0⟩, (run_sync st0 meetings env).state, noEffects⟩) := by
  constructor
  · intro env st meetings x hx
    exact foldl_no_touch env meetings ⟨0, 0, 0⟩ st noEffects x hx
      (by simp [noEffects]) (by simp [noEffects])
  · intro env env2 st0 meetings hall hup hsheet
    have hall' : ∀ m ∈ meetings, m.recording_id.isEmpty = false ∧
        detailOk (env.detail m.recording_id) = true :=
      fun m hm => ⟨isEmpty_false_of_ne _ (hall m hm).1, (hall m hm).2⟩
    have hmarks := foldl_marks env meetings hup hsheet ⟨0, 0, 0⟩ st0 noEffects hall'
    have hall2 : ∀ m ∈ meetings, m.recording_id.isEmpty = false ∧
        is_processed ((run_sync st0 meetings env).state) m.recording_id = true :=
      fun m hm => ⟨(hall' m hm).1, hmarks m hm⟩
    have h2 := foldl_all_processed env2 meetings ⟨0, 0, 0⟩
      ((run_sync st0 meetings env).state) noEffects hall2
    have h3 := run_sync_eq ((run_sync st0 meetings env).state) meetings env2 _ _ _ h2
    rw [h3]
    norm_num

/-- Witness for C2: an id already carrying a record (here the `"N/A"`
sentinel) is not fetched, and a clean second cycle over one meeting is all
skips. -/
theorem c2_idempotence_witness :
    ("5" ∉ (run_sync [("5", ⟨"N/A", "t0"⟩)] [meeting77] envHappy).eff.fetched)
    ∧ run_sync (run_sync [] [meeting77] envHappy).state [meeting77] envHappy =
        ⟨⟨0, 1, 0⟩, (run_sync [] [meeting77] envHappy).state, noEffects⟩ := by
  constructor
  · exact (c2_idempotence.1 envHappy [("5", ⟨"N/A", "t0"⟩)] [meeting77] "5"
      (by decide)).1
  · exact c2_idempotence.2 envHappy envHappy [] [meeting77]
      (by decide) (fun fn txt => rfl) (fun d l => rfl)

/-! ### Claim C4 — empty transcripts are retried -/

/-- Claim C4: an id whose detail fetch succeeds with a present-but-empty
transcript array never changes its processed-status during a cycle (in
particular it stays absent from the StateStore); and for a single such
unprocessed item the cycle counts exactly one error, zero new, zero
skipped, leaves the state untouched, and the next cycle fetches the item's
detail again. -/
theorem c4_empty_transcript :
    (∀ (env : SyncEnv) (st : StateMap) (meetings : List Meeting) (x : String),
        env.detail x = DetailResult.ok (some []) →
        is_processed (run_sync st meetings env).state x = is_processed st x)
    ∧ (∀ (env env2 : SyncEnv) (st : StateMap) (m : Meeting),
        m.recording_id ≠ "" →
        is_processed st m.recording_id = false →
        env.detail m.recording_id = DetailResult.ok (some []) →
        (run_sync st [m] env).stats = ⟨0, 0, 1⟩
        ∧ (run_sync st [m] env).state = st
        ∧ m.recording_id ∈
            (run_sync (run_sync st [m] env).state [m] env2).eff.fetched) := by
  constructor
  · intro env st meetings x hd
    exact foldl_state_empty_detail env meetings x hd ⟨0, 0, 0⟩ st noEffects
  · intro env env2 st m hne hp hd
    have he := isEmpty_false_of_ne _ hne
    have hfold : [m].foldl (process_meeting env) (⟨0, 0, 0⟩, st, noEffects) =
        (⟨0, 0, 1⟩, st, ⟨[m.recording_id], [], []⟩) := by
      rw [List.foldl_cons, List.foldl_nil,
        pm_empty_transcript env ⟨0, 0, 0⟩ st noEffects m he hp hd]
      rfl
    have hr1 := run_sync_eq st [m] env _ _ _ hfold
    refine ⟨by rw [hr1], by rw [hr1], ?_⟩
    have hstate : (run_sync st [m] env).state = st := by rw [hr1]
    rw [hstate]
    have hfetch : ([m].foldl (process_meeting env2)
        (⟨0, 0, 0⟩, st, noEffects)).2.2.fetched =
        noEffects.fetched ++ [m.recording_id] := by
      rw [List.foldl_cons, List.foldl_nil]
      exact pm_fetches env2 ⟨0, 0, 0⟩ st noEffects m he hp
    have hfetch' : (run_sync st [m] env2).eff.fetched = [m.recording_id] :=
      hfetch
    rw [hfetch']
    exact List.mem_singleton.mpr rfl

/-- Witness for C4: one unprocessed meeting whose transcript array is
present but empty yields one error and is fetched again next cycle. -/
theorem c4_empty_transcript_witness :
    (run_sync [] [meeting77] envEmptyTranscript).stats = ⟨0, 0, 1⟩
    ∧ "77" ∈ (run_sync (run_sync [] [meeting77] envEmptyTranscript).state
        [meeting77] envEmptyTranscript).eff.fetched := by
  have h := c4_empty_transcript.2 envEmptyTranscript envEmptyTranscript []
    meeting77 (by decide) rfl rfl
  exact ⟨h.1, h.2.2⟩

/-! ### Claim C5 — skip handling -/

/-- Counterexample for C5: a meeting whose id is missing (empty) is indeed
a no-op — no fetch, no upload, no append, no state write — but the
`skipped` counter is NOT incremented: the code's `if not recording_id:
continue` path bumps no counter, so the cycle ends with `skipped = 0`
where the claim requires `1`. -/
theorem c5_counterexample :
    (run_sync [] [meetingNoId] envEmptyTranscript).stats.skipped = 0
    ∧ (run_sync [] [meetingNoId] envEmptyTranscript).stats.skipped ≠ 1
    ∧ run_sync [] [meetingNoId] envEmptyTranscript = ⟨⟨0, 0, 0⟩, [], noEffects⟩ := by
  refine ⟨rfl, by decide, rfl⟩

/-- Claim C5 as amended: an item with an empty/missing id is skipped with
no side effects and no state write but without touching any counter,
while an item whose id is already in the StateStore increments `skipped`
and is likewise a complete no-op. -/
theorem c5_amended (env : SyncEnv) (s : Stats) (st : StateMap) (e : Effects)
    (m : Meeting) :
    (m.recording_id = "" → process_meeting env (s, st, e) m = (s, st, e))
    ∧ (m.recording_id ≠ "" → is_processed st m.recording_id = true →
        process_meeting env (s, st, e) m =
          (⟨s.new, s.skipped + 1, s.errors⟩, st, e)) := by
  constructor
  · intro h
    exact pm_empty_id env s st e m (by rw [h]; rfl)
  · intro h hp
    exact pm_already env s st e m (isEmpty_false_of_ne _ h) hp

/-- Witness for C5 at concrete inputs: the missing-id no-op and the
already-processed skip. -/
theorem c5_amended_witness :
    process_meeting envEmptyTranscript (⟨0, 0, 0⟩, [], noEffects) meetingNoId =
      (⟨0, 0, 0⟩, [], noEffects)
    ∧ process_meeting envEmptyTranscript
        (⟨0, 0, 0⟩, [("77", ⟨"f", "t"⟩)], noEffects) meeting77 =
      (⟨0, 1, 0⟩, [("77", ⟨"f", "t"⟩)], noEffects) := by
  refine ⟨(c5_amended envEmptyTranscript ⟨0, 0, 0⟩ [] noEffects meetingNoId).1 rfl,
    (c5_amended envEmptyTranscript ⟨0, 0, 0⟩ [("77", ⟨"f", "t"⟩)] noEffects
      meeting77).2 (by decide) (by decide)⟩
